import Mathlib

/-! Verification of the message-formatting/chunking pipeline and the per-user
session state machine of a Telegram chatbot (`src/main.py`).

Python strings are modelled as `List Char` (`Str`), following the usual
shallow-embedding style for string-manipulating code.  Each definition below
mirrors one Python function or statement block; the doc comment of each
definition names the source lines it embeds.
-/

namespace ChatBot

/-- Python strings, as character lists. -/
abbrev Str := List Char

/-! Section: Chunker: `split_message` (main.py lines 83-100) -/

/-- Backward search used by `str.rfind(sep, 0, endPos)`: try start positions
`i, i-1, ..., 0` and return the first (i.e. greatest) position where `sep`
occurs in `text`, or `-1`. -/
def rfindAux (text sep : Str) : Nat → Int
  | 0 => if sep.isPrefixOf text then 0 else -1
  | i + 1 => if sep.isPrefixOf (text.drop (i + 1)) then ((i + 1 : Nat) : Int)
             else rfindAux text sep i

/-- Python `text.rfind(sep, 0, endPos)`: greatest `i` with
`i + sep.length ≤ min endPos text.length` such that `sep` occurs in `text`
at `i`; `-1` when there is none.  For the empty `sep` this is
`min endPos text.length`, as in Python. -/
def rfind (text sep : Str) (endPos : Nat) : Int :=
  let e := min endPos text.length
  if sep.length ≤ e then rfindAux text sep (e - sep.length) else -1

/-- The separator priority list of `split_message` (main.py line 91). -/
def seps : List Str := [['\n', '\n'], ['\n'], ['.', ' '], [' '], []]

/-- The `for sep in [...]` loop of `split_message` (main.py lines 90-95):
returns the `split_pos` after the loop, starting from its initialisation
`split_pos = max_length`. -/
def findSplitPosGo (text : Str) (maxLength : Nat) : List Str → Nat
  | [] => maxLength
  | sep :: rest =>
    let pos := rfind text sep maxLength
    if ((maxLength / 2 : Nat) : Int) < pos then pos.toNat + sep.length
    else findSplitPosGo text maxLength rest

/-- The split position chosen for one iteration of the `while` loop of
`split_message` (main.py lines 90-95). -/
def findSplitPos (text : Str) (maxLength : Nat) : Nat :=
  findSplitPosGo text maxLength seps

/-- The `while len(text) > max_length` loop of `split_message` together with
the final `if text: chunks.append(text)` (main.py lines 89-99).  `fuel` is an
upper bound on the number of iterations; `split_message` passes
`text.length`, which suffices because every iteration removes at least one
character when `maxLength ≥ 1`. -/
def splitLoop (maxLength : Nat) : Nat → Str → List Str
  | 0, text => if text = [] then [] else [text]
  | fuel + 1, text =>
    if text.length ≤ maxLength then (if text = [] then [] else [text])
    else
      let sp := findSplitPos text maxLength
      text.take sp :: splitLoop maxLength fuel (text.drop sp)

/-- Function `split_message(text, max_length)` (main.py lines 83-100). -/
def split_message (text : Str) (maxLength : Nat) : List Str :=
  if text.length ≤ maxLength then [text]
  else splitLoop maxLength text.length text

/-! Section: Escaper: `escape_markdown_v2` (main.py lines 78-81) -/

/-- The MarkdownV2 reserved character set `_*[]()~` backtick `>#+-=|` braces
`.!` (main.py line 80). -/
def special_chars : Str :=
  ['_', '*', '[', ']', '(', ')', '~', '\x60', '>', '#', '+', '-', '=', '|',
   '\x7b', '\x7d', '.', '!']

/-- Function `escape_markdown_v2(text)` (main.py lines 78-81): the `re.sub` prefixes
every character of the reserved class with one backslash, scanning left to
right in a single pass. -/
def escape_markdown_v2 : Str → Str
  | [] => []
  | c :: rest =>
    if c ∈ special_chars then '\\' :: c :: escape_markdown_v2 rest
    else c :: escape_markdown_v2 rest

/-! Section: Formatter: `format_for_telegram_simple` (main.py lines 102-118)

The regex used twice in the source is `(?s)` + triple-backtick +
`(\w*)\n?(.*?)` + triple-backtick — the code-fence delimiter pattern of
`re.split` (line 105) and `re.match` (line 109).  Because `.*?` (DOTALL)
can match any characters, backtracking semantics collapse to: at a given
position the pattern matches iff the text starts with the opening fence and
a closing fence occurs after the greedily taken `\w*` run and the optional
newline; the lazy body then ends at the first closing fence. -/

/-- The triple-backtick fence. -/
def fence : Str := ['\x60', '\x60', '\x60']

/-- Python's regex `\w` for the ASCII characters that occur here:
letters, digits, underscore. -/
def isWordChar (c : Char) : Bool := c.isAlphanum || c = '_'

/-- Index of the first occurrence of `pat` in `s` (Python `s.find(pat)`
restricted to found-or-none), used for locating the closing fence reached
by the lazy `.*?`. -/
def findSub (pat : Str) : Str → Option Nat
  | [] => if pat.isPrefixOf ([] : Str) then some 0 else none
  | c :: rest =>
    if pat.isPrefixOf (c :: rest) then some 0
    else (findSub pat rest).map (· + 1)

/-- Attempt to match the code-fence regex at the start of `text`; returns
the total length of the match (group 1 of the `re.split` pattern).  `\w*` is
greedy, `\n?` is greedy, `.*?` is lazy, exactly as in the Python pattern. -/
def matchFenceLen (text : Str) : Option Nat :=
  if fence.isPrefixOf text then
    let r := text.drop 3
    let w := r.takeWhile isWordChar
    let r1 := r.drop w.length
    let hasNl := r1.head? = some '\n'
    let r2 := if hasNl then r1.drop 1 else r1
    match findSub fence r2 with
    | some p => some (3 + w.length + (if hasNl then 1 else 0) + p + 3)
    | none => none
  else none

/-- Leftmost match of the code-fence regex: the smallest start position at
which `matchFenceLen` succeeds, with the match length. -/
def findMatch : Str → Option (Nat × Nat)
  | [] => none
  | c :: rest =>
    match matchFenceLen (c :: rest) with
    | some len => some (0, len)
    | none => (findMatch rest).map (fun jl => (jl.1 + 1, jl.2))

/-- The scan loop of `re.split` with a capturing group (main.py line 105):
alternating gap and delimiter parts, ending with the gap after the last
match.  `fuel` bounds the number of matches; every match consumes at least
six characters, so `text.length` suffices. -/
def reSplitFences (fuel : Nat) (text : Str) : List Str :=
  match fuel with
  | 0 => [text]
  | fuel + 1 =>
    match findMatch text with
    | none => [text]
    | some (j, len) =>
      text.take j :: (text.drop j).take len :: reSplitFences fuel (text.drop (j + len))

/-- Call `re.split(r'(```(?:\w*)\n?.*?```)', text, flags=re.DOTALL)`
(main.py line 105). -/
def re_split_fences (text : Str) : List Str := reSplitFences text.length text

/-- Group 2 of `re.match(r'```(\w*)\n?(.*?)```', part, re.DOTALL)`
(main.py line 109): the code body of a part that re-matches the fence
pattern at its start, `none` when the anchored match fails. -/
def reMatchFence2 (part : Str) : Option Str :=
  if fence.isPrefixOf part then
    let r := part.drop 3
    let w := r.takeWhile isWordChar
    let r1 := r.drop w.length
    let r2 := if r1.head? = some '\n' then r1.drop 1 else r1
    (findSub fence r2).map (fun p => r2.take p)
  else none

/-- Python whitespace for `str.strip()` truthiness (main.py line 115). -/
def pyIsSpace (c : Char) : Bool :=
  c = ' ' || c = '\t' || c = '\n' || c = '\r' || c = '\x0b' || c = '\x0c'

/-- Python `code.rstrip('\n')` (main.py line 112): remove every trailing
newline. -/
def rstripNl (s : Str) : Str := (s.reverse.dropWhile (fun c => c = '\n')).reverse

/-- The two segment kinds `'code'` and `'text'` of the formatter's output
tuples. -/
inductive PartKind where
  | code : PartKind
  | txt : PartKind
deriving DecidableEq

/-- The body of the `for part in parts` loop (main.py lines 107-116): a
fence-prefixed part is re-matched and emitted as an escaped, re-fenced code
segment (or silently dropped when the anchored re-match fails); any other
part is emitted as an escaped text segment when it has a non-whitespace
character, and dropped otherwise. -/
def processPart (part : Str) : List (PartKind × Str) :=
  if fence.isPrefixOf part then
    match reMatchFence2 part with
    | some code =>
      [(PartKind.code, fence ++ '\n' :: (escape_markdown_v2 (rstripNl code) ++ '\n' :: fence))]
    | none => []
  else
    if part.any (fun c => !(pyIsSpace c)) then
      [(PartKind.txt, escape_markdown_v2 part)]
    else []

/-- Function `format_for_telegram_simple(text)` (main.py lines 102-118). -/
def format_for_telegram_simple (text : Str) : List (PartKind × Str) :=
  ((re_split_fences text).map processPart).flatten



/-! Section: Session store and model switch (main.py lines 30, 235-282)

`user_data` is the process-wide dict from user id to
`{"chat": ..., "model_name": ...}`; a conversation handle is modelled by
its list of turns (`start_chat(history=[])` gives the empty list).  The two
effectful collaborators that can raise inside the handlers are abstracted
into `Effects`: `modelValid` says whether `genai.GenerativeModel(name)`
raises, and `confirmDelivery` says whether the code after the session
replacement (display-name resolution and the confirmation send) raises.
The failure reply sent from an `except` block is modelled as delivered. -/

/-- One user's entry of `user_data` (main.py lines 136-139, 247-250,
269-272, 281). -/
structure Session where
  history : List Str
  model_name : Str

/-- The `user_data` mapping (main.py line 30). -/
def Store : Type := Nat → Option Session

/-- Raise points of the model-switch handlers. -/
structure Effects where
  modelValid : Str → Bool
  confirmDelivery : Bool

/-- The replies the handlers send, abstracted to their kind. -/
inductive Msg where
  | switched : Msg
  | switchFailed : Msg
  | cleared : Msg
deriving DecidableEq

/-- Assignment `user_data[user_id] = {...}` (dict assignment). -/
def updateStore (store : Store) (uid : Nat) (s : Session) : Store :=
  fun u => if u = uid then some s else store u

/-- Constant `DEFAULT_MODEL` (main.py line 13). -/
def DEFAULT_MODEL : Str := "gemini-2.0-flash".toList

/-- Handler `switch_model` (main.py lines 259-276), for the case where a model name
argument is present: validate by constructing `genai.GenerativeModel`; on
success replace the user's session with a fresh empty conversation bound to
the new model, then resolve the display name and send the confirmation —
if that raises, the `except` branch reports a switch failure even though
the store was already replaced; on construction failure the store is left
untouched and the failure is reported. -/
def switch_model (eff : Effects) (store : Store) (uid : Nat)
    (new_model_name : Str) : Store × Msg :=
  if eff.modelValid new_model_name then
    let store' := updateStore store uid { history := [], model_name := new_model_name }
    if eff.confirmDelivery then (store', Msg.switched)
    else (store', Msg.switchFailed)
  else (store, Msg.switchFailed)

/-- The `"model:"` callback-data tag (main.py lines 243, 222). -/
def model_tag : Str := ['m', 'o', 'd', 'e', 'l', ':']

/-- Python `data.split(":", 1)[1]`: everything after the first colon
(main.py line 244). -/
def splitColonTail (data : Str) : Str :=
  (data.dropWhile (fun c => decide (c ≠ ':'))).drop 1

/-- Handler `model_callback` (main.py lines 235-257): on `"model:"`-tagged callback
data, extract the model id and perform the same guarded switch as
`switch_model`; `none` means no reply was sent (data without the tag). -/
def model_callback (eff : Effects) (store : Store) (uid : Nat)
    (data : Str) : Store × Option Msg :=
  if model_tag.isPrefixOf data then
    let new_model := splitColonTail data
    if eff.modelValid new_model then
      let store' := updateStore store uid { history := [], model_name := new_model }
      if eff.confirmDelivery then (store', some Msg.switched)
      else (store', some Msg.switchFailed)
    else (store, some Msg.switchFailed)
  else (store, none)

/-- Handler `new_chat` (main.py lines 278-282): reset keeps the stored model name
(default when the user has no session) and installs a fresh empty
conversation.  The `GenerativeModel` construction is not guarded by any
`try` here, so a raising constructor propagates: that outcome is `none`. -/
def new_chat (eff : Effects) (store : Store) (uid : Nat) :
    Option (Store × Msg) :=
  let name := match store uid with
    | some s => s.model_name
    | none => DEFAULT_MODEL
  if eff.modelValid name then
    some (updateStore store uid { history := [], model_name := name }, Msg.cleared)
  else none

/-! Section: Reply delivery (main.py lines 313-327)

For each formatted part, `chat_handler` chunks it with `split_message` and
sends each chunk with `parse_mode=MARKDOWN_V2` inside a `try`; when the
platform rejects the formatted send, the `except` branch re-sends that one
chunk with `chunk.replace('\\', '')` as plain text.  The code and text
branches of the loop are identical.  `accept` abstracts whether the
platform accepts the formatted send of a given chunk; the plain fallback
send is modelled as delivered. -/

/-- A message actually delivered to the user: MarkdownV2-formatted or the
plain-text fallback. -/
inductive Sent where
  | fmt : Str → Sent
  | plain : Str → Sent
deriving DecidableEq

/-- Python `chunk.replace('\\', '')` (main.py lines 322, 327). -/
def stripBackslashes (s : Str) : Str := s.filter (fun c => decide (c ≠ '\\'))

/-- The per-chunk `try`/`except` send (main.py lines 318-327). -/
def deliverChunk (accept : Str → Bool) (chunk : Str) : List Sent :=
  if accept chunk then [Sent.fmt chunk]
  else [Sent.plain (stripBackslashes chunk)]

/-- The `for chunk in chunks` loop (main.py lines 317-327). -/
def deliverChunks (accept : Str → Bool) (chunks : List Str) : List Sent :=
  (chunks.map (deliverChunk accept)).flatten

/-- The whole delivery phase of `chat_handler` (main.py lines 313-327):
format, chunk each part with the default `max_length = 4000`, deliver. -/
def chat_deliver (accept : Str → Bool) (reply_text : Str) : List Sent :=
  (((format_for_telegram_simple reply_text).map
    (fun part => deliverChunks accept (split_message part.2 4000))).flatten)

/-! Section: Model registry: `get_available_models` (main.py lines 30-69)

The module globals `_model_cache` / `_model_cache_time` form the state; the
remote call `genai.list_models()` is abstracted as an `Except` parameter
(`Except.error` models the raised exception caught on line 57), and
`time.time()` as `now`. -/

/-- One entry returned by `genai.list_models()`. -/
structure ModelInfo where
  name : Str
  supported_generation_methods : List Str
  display_name : Option Str

/-- Remove every occurrence of `pat` from `s`, scanning left to right:
Python `s.replace(pat, '')`.  `fuel` bounds the scan; `s.length` suffices
for non-empty `pat`. -/
def removeSubGo (pat : Str) : Nat → Str → Str
  | 0, s => s
  | _ + 1, [] => []
  | fuel + 1, c :: rest =>
    if pat ≠ [] ∧ pat.isPrefixOf (c :: rest) then
      removeSubGo pat fuel ((c :: rest).drop pat.length)
    else c :: removeSubGo pat fuel rest

/-- Python `s.replace(pat, '')` for non-empty `pat` (main.py line 50). -/
def removeSub (s pat : Str) : Str := removeSubGo pat s.length s

/-- Constant `MODEL_CACHE_TTL = 300` (main.py line 33). -/
def MODEL_CACHE_TTL : Nat := 300

/-- The hardcoded fallback mapping (main.py lines 62-66). -/
def fallback_models : List (Str × Str) :=
  [("gemini-2.0-flash".toList, "Gemini 2.0 Flash".toList),
   ("gemini-1.5-pro".toList, "Gemini 1.5 Pro".toList),
   ("gemini-1.5-flash".toList, "Gemini 1.5 Flash".toList)]

/-- Python dict assignment `d[k] = v`: overwrite in place when the key
exists, append otherwise. -/
def dictInsert : List (Str × Str) → Str → Str → List (Str × Str)
  | [], k, v => [(k, v)]
  | (k0, v0) :: rest, k, v =>
    if k0 = k then (k0, v) :: rest else (k0, v0) :: dictInsert rest k v

/-- The `for m in genai.list_models()` loop (main.py lines 47-53): keep
models supporting `generateContent`, key them by the name with the
`models/` prefix removed, value `display_name or model_id`. -/
def buildModels (ms : List ModelInfo) : List (Str × Str) :=
  ms.foldl
    (fun d m =>
      if "generateContent".toList ∈ m.supported_generation_methods then
        let model_id := removeSub m.name "models/".toList
        let display := match m.display_name with
          | some dn => if dn = [] then model_id else dn
          | none => model_id
        dictInsert d model_id display
      else d)
    []

/-- The registry's global state: `_model_cache` and `_model_cache_time`
(main.py lines 31-32). -/
structure RegistryState where
  cache : Option (List (Str × Str))
  cacheTime : Nat

/-- The body of `get_available_models` after the cache-validity check
(main.py lines 45-69): on a successful remote query, build and cache the
mapping; on failure, serve the (stale) cache when one exists, otherwise
install and serve the hardcoded fallback. -/
def refresh_models (st : RegistryState) (now : Nat)
    (fetch : Except Unit (List ModelInfo)) :
    RegistryState × List (Str × Str) :=
  match fetch with
  | Except.ok ms =>
    let models := buildModels ms
    ({ cache := some models, cacheTime := now }, models)
  | Except.error _ =>
    match st.cache with
    | some c => (st, c)
    | none => ({ cache := some fallback_models, cacheTime := now }, fallback_models)

/-- Function `get_available_models` (main.py lines 36-69): serve the cache while it
is younger than the TTL, otherwise refresh via `refresh_models`. -/
def get_available_models (st : RegistryState) (now : Nat)
    (fetch : Except Unit (List ModelInfo)) :
    RegistryState × List (Str × Str) :=
  match st.cache with
  | some c =>
    if now - st.cacheTime < MODEL_CACHE_TTL then (st, c)
    else refresh_models st now fetch
  | none => refresh_models st now fetch

/-! Section: Concrete inputs used by counterexamples and witnesses -/

/-- The code block whose body ends in two newlines: the fenced text
between the backticks is `"\nx\n\n"`, so the regex body is `"x\n\n"`. -/
def codeTwoNewlines : Str := fence ++ '\n' :: 'x' :: '\n' :: '\n' :: fence

end ChatBot

namespace ChatBot

/-! Section: Basic lemmas about the chunker -/

theorem rfindAux_le {text sep : Str} {p : Nat} :
    ∀ {i : Nat}, rfindAux text sep i = (p : Int) → p ≤ i := by
  intro i
  induction i with
  | zero =>
    intro h
    simp only [rfindAux] at h
    split at h
    · omega
    · omega
  | succ i ih =>
    intro h
    simp only [rfindAux] at h
    split at h
    · omega
    · exact Nat.le_succ_of_le (ih h)

theorem rfind_le {text sep : Str} {endPos : Nat} {p : Nat}
    (h : rfind text sep endPos = (p : Int)) :
    p + sep.length ≤ min endPos text.length := by
  simp only [rfind] at h
  split at h
  · have := rfindAux_le h
    omega
  · omega

/-- The split position chosen by one loop iteration is always between `1`
and `maxLength` (for `maxLength ≥ 1`): no chunk is empty and no chunk
exceeds the limit. -/
theorem findSplitPos_bounds (text : Str) (maxLength : Nat)
    (hmax : 1 ≤ maxLength) :
    1 ≤ findSplitPos text maxLength ∧ findSplitPos text maxLength ≤ maxLength := by
  unfold findSplitPos
  generalize seps = l
  induction l with
  | nil => simp [findSplitPosGo]; omega
  | cons sep rest ih =>
    simp only [findSplitPosGo]
    split
    · rename_i hpos
      have hnn : 0 ≤ rfind text sep maxLength := by omega
      have heq : rfind text sep maxLength = (((rfind text sep maxLength).toNat : Nat) : Int) := by
        omega
      have hle := rfind_le heq
      constructor
      · omega
      · omega
    · exact ih

theorem splitLoop_join {maxLength : Nat} (hmax : 1 ≤ maxLength) :
    ∀ (fuel : Nat) (text : Str), text.length ≤ fuel →
      (splitLoop maxLength fuel text).flatten = text := by
  intro fuel
  induction fuel with
  | zero =>
    intro text hle
    have : text = [] := by
      cases text with
      | nil => rfl
      | cons c rest => simp at hle
    subst this
    simp [splitLoop]
  | succ fuel ih =>
    intro text hle
    simp only [splitLoop]
    split
    · split
      · rename_i h; subst h; simp
      · simp
    · rename_i hlong
      have hb := findSplitPos_bounds text maxLength hmax
      have hdrop : (text.drop (findSplitPos text maxLength)).length ≤ fuel := by
        simp only [List.length_drop]
        omega
      simp only [List.flatten_cons, ih _ hdrop, List.take_append_drop]

theorem splitLoop_chunk_le {maxLength : Nat} (hmax : 1 ≤ maxLength) :
    ∀ (fuel : Nat) (text : Str) (chunk : Str), text.length ≤ fuel →
      chunk ∈ splitLoop maxLength fuel text → chunk.length ≤ maxLength := by
  intro fuel
  induction fuel with
  | zero =>
    intro text chunk hle hmem
    have : text = [] := by
      cases text with
      | nil => rfl
      | cons c rest => simp at hle
    subst this
    simp [splitLoop] at hmem
  | succ fuel ih =>
    intro text chunk hle hmem
    simp only [splitLoop] at hmem
    split at hmem
    · rename_i hshort
      split at hmem
      · simp at hmem
      · simp at hmem
        subst hmem
        exact hshort
    · rename_i hlong
      have hb := findSplitPos_bounds text maxLength hmax
      simp only [List.mem_cons] at hmem
      cases hmem with
      | inl h =>
        subst h
        simp only [List.length_take]
        omega
      | inr h =>
        refine ih _ _ ?_ h
        simp only [List.length_drop]
        omega

theorem splitLoop_ne_nil {maxLength : Nat} (fuel : Nat) (text : Str)
    (hne : text ≠ []) : splitLoop maxLength fuel text ≠ [] := by
  cases fuel with
  | zero => simp [splitLoop, hne]
  | succ fuel =>
    simp only [splitLoop]
    split
    · simp [hne]
    · simp

/-- Claim C1: For every input string and every `max_length ≥ 1`, concatenating
the chunks returned by `split_message` reproduces the input exactly, the
chunk sequence is non-empty, and every chunk's length is at most
`max_length` (the code hard-cuts at exactly `max_length`, so the bound in
fact holds without any oversized-fallback exception). -/
theorem c1_split_message_spec (text : Str) (maxLength : Nat)
    (hmax : 1 ≤ maxLength) :
    (split_message text maxLength).flatten = text ∧
    split_message text maxLength ≠ [] ∧
    ∀ chunk ∈ split_message text maxLength, chunk.length ≤ maxLength := by
  unfold split_message
  split
  · rename_i hshort
    refine ⟨by simp, by simp, ?_⟩
    intro chunk hmem
    simp at hmem
    subst hmem
    exact hshort
  · rename_i hlong
    have hne : text ≠ [] := by
      intro h
      subst h
      simp at hlong
    exact ⟨splitLoop_join hmax text.length text le_rfl,
      splitLoop_ne_nil text.length text hne,
      fun chunk hmem => splitLoop_chunk_le hmax text.length text chunk le_rfl hmem⟩

/-- Witness for C1 on a concrete input: `"ab cd ef"` with `max_length = 3`. -/
theorem c1_split_message_spec_witness :
    1 ≤ 3 ∧
    ((split_message ['a', 'b', ' ', 'c', 'd', ' ', 'e', 'f'] 3).flatten
        = ['a', 'b', ' ', 'c', 'd', ' ', 'e', 'f'] ∧
      split_message ['a', 'b', ' ', 'c', 'd', ' ', 'e', 'f'] 3 ≠ [] ∧
      ∀ chunk ∈ split_message ['a', 'b', ' ', 'c', 'd', ' ', 'e', 'f'] 3,
        chunk.length ≤ 3) :=
  ⟨by decide, c1_split_message_spec ['a', 'b', ' ', 'c', 'd', ' ', 'e', 'f'] 3 (by decide)⟩

/-- Claim C3: the function `split_message` searches backward from `max_length` for a
boundary in the priority order double-newline, newline, `". "`, space,
empty (the `seps` list, tried in order by `findSplitPos`), accepting a
candidate only if its position exceeds `max_length / 2`.  Consequently, for
any over-long text whose last double-newline inside the window
`[0, max_length)` sits at position `p > max_length / 2`, the first chunk
ends exactly just after that double-newline.  Instantiating
`maxLength := 4000` gives the claim's statement for the default limit. -/
theorem c3_first_split_at_double_newline (text : Str) (maxLength p : Nat)
    (hmax : 1 ≤ maxLength) (hlong : maxLength < text.length)
    (hfind : rfind text ['\n', '\n'] maxLength = (p : Int))
    (hp : maxLength / 2 < p) :
    (split_message text maxLength).head? = some (text.take (p + 2)) := by
  have hsp : findSplitPos text maxLength = p + 2 := by
    have hcond : ((maxLength / 2 : Nat) : Int) < (p : Int) := by omega
    simp only [findSplitPos, seps, findSplitPosGo, hfind, if_pos hcond]
    simp
  obtain ⟨m, hm⟩ : ∃ m, text.length = m + 1 := ⟨text.length - 1, by omega⟩
  unfold split_message
  rw [if_neg (by omega), hm]
  simp only [splitLoop]
  rw [if_neg (by omega), hsp]
  rfl

/-- Witness for C3: `"abcde\n\nfgh"` with `max_length = 8` splits first at
position 7, just after the double-newline at position 5. -/
theorem c3_first_split_at_double_newline_witness :
    1 ≤ 8 ∧ 8 < 10 ∧
    rfind ['a', 'b', 'c', 'd', 'e', '\n', '\n', 'f', 'g', 'h'] ['\n', '\n'] 8 = (5 : Int) ∧
    8 / 2 < 5 ∧
    (split_message ['a', 'b', 'c', 'd', 'e', '\n', '\n', 'f', 'g', 'h'] 8).head?
      = some (['a', 'b', 'c', 'd', 'e', '\n', '\n', 'f', 'g', 'h'].take 7) :=
  ⟨by decide, by decide, by decide, by decide,
    c3_first_split_at_double_newline
      ['a', 'b', 'c', 'd', 'e', '\n', '\n', 'f', 'g', 'h'] 8 5
      (by decide) (by decide) (by decide) (by decide)⟩

/-! Section: Formatter lemmas and claims -/

/-- Claim C9: the function `format_for_telegram_simple` can lose content entirely: for the
input `"```abc"` — an opening triple-backtick that is never closed — the
regex split leaves the whole text as one part, that part starts with the
fence but fails the anchored code-block re-match, and the function returns
the empty segment sequence although the input is non-empty. -/
theorem c9_unclosed_fence_drops_content :
    format_for_telegram_simple (fence ++ ['a', 'b', 'c']) = [] ∧
    fence ++ ['a', 'b', 'c'] ≠ ([] : Str) := by
  decide

/-- Segments of the formatter's output all come from processing one part of
the regex split. -/
theorem format_mem {t : Str} {seg : PartKind × Str}
    (h : seg ∈ format_for_telegram_simple t) :
    ∃ part ∈ re_split_fences t, seg ∈ processPart part := by
  simp only [format_for_telegram_simple, List.mem_flatten, List.mem_map] at h
  obtain ⟨l, ⟨part, hpart, rfl⟩, hseg⟩ := h
  exact ⟨part, hpart, hseg⟩

theorem processPart_txt {part content : Str}
    (h : (PartKind.txt, content) ∈ processPart part) :
    content = escape_markdown_v2 part := by
  simp only [processPart] at h
  split at h
  · split at h
    · simp at h
    · simp at h
  · split at h
    · simp at h
      exact h
    · simp at h

theorem processPart_code {part content : Str}
    (h : (PartKind.code, content) ∈ processPart part) :
    ∃ body, reMatchFence2 part = some body ∧
      content = fence ++ '\n' :: (escape_markdown_v2 (rstripNl body) ++ '\n' :: fence) := by
  simp only [processPart] at h
  split at h
  · split at h
    · rename_i body hbody
      simp at h
      exact ⟨body, hbody, h⟩
    · simp at h
  · split at h
    · simp at h
    · simp at h

theorem head_dropWhile_false {p : Char → Bool} :
    ∀ {l : Str} {a : Char}, (l.dropWhile p).head? = some a → p a = false := by
  intro l
  induction l with
  | nil => intro a h; simp [List.dropWhile] at h
  | cons c rest ih =>
    intro a h
    simp only [List.dropWhile] at h
    split at h
    · exact ih h
    · rename_i hc
      simp at h
      subst h
      simpa using hc

/-- Python `rstrip('\n')` leaves no trailing newline. -/
theorem rstripNl_no_trailing_newline (s : Str) :
    (rstripNl s).getLast? ≠ some '\n' := by
  unfold rstripNl
  rw [List.getLast?_reverse]
  intro h
  have := head_dropWhile_false h
  simp at this

/-- Claim C4, counterexample: On the input whose code body is `"x\n\n"`
(ending in two newlines), the emitted code segment is the fence, a newline,
`x`, a single newline and the closing fence: the body lost *both* trailing
newlines to `rstrip('\n')`.  Under the claim — strip exactly one trailing
newline, a body ending in two or more newlines keeps all but the last —
the segment would have kept `"x\n"` and read fence, newline, `x`, two
newlines, fence; the code produces something else. -/
theorem c4_rstrip_counterexample :
    format_for_telegram_simple codeTwoNewlines
      = [(PartKind.code, fence ++ '\n' :: 'x' :: '\n' :: fence)] ∧
    format_for_telegram_simple codeTwoNewlines
      ≠ [(PartKind.code, fence ++ '\n' :: 'x' :: '\n' :: '\n' :: fence)] := by
  decide

/-- Claim C4, amended: For every code span recognized by
`format_for_telegram_simple`, *all* trailing newlines are stripped from the
span's body before escaping (so a body ending in two or more newlines
loses all of them, not all but one), and the emitted segment re-wraps the
escaped stripped body as fence, newline, body, newline, fence; in
particular the escaped body never ends in a newline. -/
theorem c4_code_span_strips_all_trailing_newlines (t content : Str)
    (h : (PartKind.code, content) ∈ format_for_telegram_simple t) :
    ∃ part body, part ∈ re_split_fences t ∧
      reMatchFence2 part = some body ∧
      content = fence ++ '\n' :: (escape_markdown_v2 (rstripNl body) ++ '\n' :: fence) ∧
      (rstripNl body).getLast? ≠ some '\n' := by
  obtain ⟨part, hpart, hseg⟩ := format_mem h
  obtain ⟨body, hbody, hcontent⟩ := processPart_code hseg
  exact ⟨part, body, hpart, hbody, hcontent, rstripNl_no_trailing_newline body⟩

/-- Witness for the amended C4, on the concrete counterexample input. -/
theorem c4_code_span_strips_all_trailing_newlines_witness :
    (PartKind.code, fence ++ '\n' :: 'x' :: '\n' :: fence)
        ∈ format_for_telegram_simple codeTwoNewlines ∧
    ∃ part body, part ∈ re_split_fences codeTwoNewlines ∧
      reMatchFence2 part = some body ∧
      fence ++ '\n' :: 'x' :: '\n' :: fence
        = fence ++ '\n' :: (escape_markdown_v2 (rstripNl body) ++ '\n' :: fence) ∧
      (rstripNl body).getLast? ≠ some '\n' :=
  ⟨by decide,
    c4_code_span_strips_all_trailing_newlines codeTwoNewlines
      (fence ++ '\n' :: 'x' :: '\n' :: fence) (by decide)⟩

/-- Lemma: `escape_markdown_v2` replaces each character independently: a reserved
character becomes backslash-then-itself, any other character stays. -/
theorem escape_markdown_v2_eq_flatten (s : Str) :
    escape_markdown_v2 s
      = (s.map (fun c => if c ∈ special_chars then ['\\', c] else [c])).flatten := by
  induction s with
  | nil => rfl
  | cons c rest ih =>
    simp only [escape_markdown_v2, List.map_cons, List.flatten_cons]
    split
    · simp [ih]
    · simp [ih]

theorem escape_markdown_v2_length (s : Str) :
    (escape_markdown_v2 s).length
      = s.length + s.countP (fun c => decide (c ∈ special_chars)) := by
  induction s with
  | nil => rfl
  | cons c rest ih =>
    simp only [escape_markdown_v2]
    split
    · rename_i hc
      simp only [List.length_cons, ih, List.countP_cons]
      simp [hc]
      omega
    · rename_i hc
      simp only [List.length_cons, ih, List.countP_cons]
      simp [hc]
      omega

theorem escape_markdown_v2_countP (s : Str) :
    (escape_markdown_v2 s).countP (fun c => decide (c ∈ special_chars))
      = s.countP (fun c => decide (c ∈ special_chars)) := by
  induction s with
  | nil => rfl
  | cons c rest ih =>
    simp only [escape_markdown_v2]
    split
    · rename_i hc
      have hbs : ('\\' ∈ special_chars) = False := by simp [special_chars]
      simp [List.countP_cons, ih, hc, hbs]
    · rename_i hc
      simp [List.countP_cons, ih, hc]

/-- Claim C2: Every non-code (text) segment produced by
`format_for_telegram_simple` is one part of the regex split with every
reserved character prefixed by exactly one inserted backslash (each input
character maps to backslash-then-itself when reserved and to itself
otherwise, in one left-to-right pass); and this escaping is not idempotent:
re-escaping any text that contains a reserved character double-escapes it,
yielding a strictly different string. -/
theorem c2_text_segments_escaped_once_not_idempotent :
    (∀ (t content : Str), (PartKind.txt, content) ∈ format_for_telegram_simple t →
      ∃ part, part ∈ re_split_fences t ∧
        content = (part.map (fun c => if c ∈ special_chars then ['\\', c] else [c])).flatten) ∧
    (∀ s : Str, (∃ c ∈ s, c ∈ special_chars) →
      escape_markdown_v2 (escape_markdown_v2 s) ≠ escape_markdown_v2 s) := by
  constructor
  · intro t content h
    obtain ⟨part, hpart, hseg⟩ := format_mem h
    exact ⟨part, hpart, (processPart_txt hseg).trans (escape_markdown_v2_eq_flatten part)⟩
  · intro s hs
    have hpos : 0 < s.countP (fun c => decide (c ∈ special_chars)) := by
      rw [List.countP_pos_iff]
      obtain ⟨c, hc, hmem⟩ := hs
      exact ⟨c, hc, by simpa using hmem⟩
    intro heq
    have hlen := congrArg List.length heq
    rw [escape_markdown_v2_length (escape_markdown_v2 s),
      escape_markdown_v2_countP, escape_markdown_v2_length] at hlen
    omega

/-- Witness for C2: the text `"hi."` formats to the single text segment
`"hi\."`, and re-escaping `"."` changes it. -/
theorem c2_text_segments_escaped_once_not_idempotent_witness :
    ((PartKind.txt, ['h', 'i', '\\', '.'])
        ∈ format_for_telegram_simple ['h', 'i', '.'] ∧
      ∃ part, part ∈ re_split_fences ['h', 'i', '.'] ∧
        ['h', 'i', '\\', '.']
          = (part.map (fun c => if c ∈ special_chars then ['\\', c] else [c])).flatten) ∧
    ((∃ c ∈ ['.'], c ∈ special_chars) ∧
      escape_markdown_v2 (escape_markdown_v2 ['.']) ≠ escape_markdown_v2 ['.']) :=
  ⟨⟨by decide,
      c2_text_segments_escaped_once_not_idempotent.1 ['h', 'i', '.']
        ['h', 'i', '\\', '.'] (by decide)⟩,
    ⟨by decide,
      c2_text_segments_escaped_once_not_idempotent.2 ['.'] (by decide)⟩⟩

/-! Section: Session store claims -/

/-- Python `data.split(":", 1)[1]` recovers the model id from tagged callback
data. -/
theorem splitColonTail_model_tag (name : Str) :
    splitColonTail (model_tag ++ name) = name := by
  simp [splitColonTail, model_tag, List.dropWhile]

/-- Claim C5: Switching to a model id whose `genai.GenerativeModel`
construction fails leaves the stored session mapping exactly as before —
in particular the user's conversation handle and `model_name` are
untouched — and the user receives the failure message; both the `/model`
command path and the callback-button path behave this way, and neither
lets the exception escape (the embedded handlers are total functions). -/
theorem c5_invalid_switch_leaves_session (eff : Effects) (store : Store)
    (uid : Nat) (name : Str) (hinvalid : eff.modelValid name = false) :
    switch_model eff store uid name = (store, Msg.switchFailed) ∧
    model_callback eff store uid (model_tag ++ name)
      = (store, some Msg.switchFailed) := by
  constructor
  · simp [switch_model, hinvalid]
  · simp [model_callback, List.prefix_append, splitColonTail_model_tag, hinvalid]

/-- Witness for C5: a validator rejecting `"bad"`, a store with one
session. -/
theorem c5_invalid_switch_leaves_session_witness :
    (Effects.mk (fun _ => false) true).modelValid ['b', 'a', 'd'] = false ∧
    (switch_model (Effects.mk (fun _ => false) true)
        (fun _ => none) 7 ['b', 'a', 'd']
      = ((fun _ => none : Store), Msg.switchFailed) ∧
    model_callback (Effects.mk (fun _ => false) true)
        (fun _ => none) 7 (model_tag ++ ['b', 'a', 'd'])
      = ((fun _ => none : Store), some Msg.switchFailed)) :=
  ⟨rfl,
    c5_invalid_switch_leaves_session (Effects.mk (fun _ => false) true)
      (fun _ => none) 7 ['b', 'a', 'd'] rfl⟩

/-- Claim C7: For every user with an existing session, `/new` (`new_chat`)
keeps the session's `model_name` and replaces its conversation with a
fresh one containing zero turns; every other user's entry is untouched. -/
theorem c7_reset_preserves_model_clears_history (eff : Effects)
    (store : Store) (uid : Nat) (s : Session)
    (hs : store uid = some s) (hvalid : eff.modelValid s.model_name = true) :
    ∃ store', new_chat eff store uid = some (store', Msg.cleared) ∧
      store' uid = some { history := [], model_name := s.model_name } ∧
      ∀ u, u ≠ uid → store' u = store u := by
  refine ⟨updateStore store uid { history := [], model_name := s.model_name }, ?_, ?_, ?_⟩
  · simp [new_chat, hs, hvalid]
  · simp [updateStore]
  · intro u hu
    simp [updateStore, hu]

/-- Witness for C7: a one-user store whose session has one prior turn. -/
theorem c7_reset_preserves_model_clears_history_witness :
    (updateStore (fun _ => none) 7 (Session.mk [['h', 'i']] ['m', 'x'])) 7
        = some (Session.mk [['h', 'i']] ['m', 'x']) ∧
    (Effects.mk (fun _ => true) true).modelValid ['m', 'x'] = true ∧
    ∃ store', new_chat (Effects.mk (fun _ => true) true)
        (updateStore (fun _ => none) 7 (Session.mk [['h', 'i']] ['m', 'x'])) 7
        = some (store', Msg.cleared) ∧
      store' 7 = some { history := [], model_name := ['m', 'x'] } ∧
      ∀ u, u ≠ 7 → store' u
        = (updateStore (fun _ => none) 7 (Session.mk [['h', 'i']] ['m', 'x'])) u :=
  ⟨rfl, rfl,
    c7_reset_preserves_model_clears_history (Effects.mk (fun _ => true) true)
      (updateStore (fun _ => none) 7 (Session.mk [['h', 'i']] ['m', 'x'])) 7
      (Session.mk [['h', 'i']] ['m', 'x']) rfl rfl⟩

/-- Claim C10: In both model-switch handlers the stored session is replaced
*before* the confirmation is sent: when the model handle construction
succeeds but resolving the display name or delivering the confirmation
then raises, the user is sent the switch-failure message even though the
session now holds the new model with a cleared conversation — the reported
failure does not imply the session is unchanged. -/
theorem c10_failure_reported_after_switch (eff : Effects) (store : Store)
    (uid : Nat) (name : Str) (hvalid : eff.modelValid name = true)
    (hconfirm : eff.confirmDelivery = false) :
    (switch_model eff store uid name).2 = Msg.switchFailed ∧
    (switch_model eff store uid name).1 uid
      = some { history := [], model_name := name } ∧
    (model_callback eff store uid (model_tag ++ name)).2
      = some Msg.switchFailed ∧
    (model_callback eff store uid (model_tag ++ name)).1 uid
      = some { history := [], model_name := name } := by
  refine ⟨?_, ?_, ?_, ?_⟩ <;>
    simp [switch_model, model_callback, List.prefix_append,
      splitColonTail_model_tag, hvalid, hconfirm, updateStore]

/-- Witness for C10: a validator accepting `"m2"` and a failing
confirmation delivery. -/
theorem c10_failure_reported_after_switch_witness :
    (Effects.mk (fun _ => true) false).modelValid ['m', '2'] = true ∧
    (Effects.mk (fun _ => true) false).confirmDelivery = false ∧
    ((switch_model (Effects.mk (fun _ => true) false) (fun _ => none) 7
        ['m', '2']).2 = Msg.switchFailed ∧
     (switch_model (Effects.mk (fun _ => true) false) (fun _ => none) 7
        ['m', '2']).1 7 = some { history := [], model_name := ['m', '2'] } ∧
     (model_callback (Effects.mk (fun _ => true) false) (fun _ => none) 7
        (model_tag ++ ['m', '2'])).2 = some Msg.switchFailed ∧
     (model_callback (Effects.mk (fun _ => true) false) (fun _ => none) 7
        (model_tag ++ ['m', '2'])).1 7
        = some { history := [], model_name := ['m', '2'] }) :=
  ⟨rfl, rfl,
    c10_failure_reported_after_switch (Effects.mk (fun _ => true) false)
      (fun _ => none) 7 ['m', '2'] rfl rfl⟩

/-! Section: Delivery claim -/

theorem deliverChunks_all_accepted (accept : Str → Bool) :
    ∀ (chunks : List Str), (∀ d ∈ chunks, accept d = true) →
      deliverChunks accept chunks = chunks.map Sent.fmt := by
  intro chunks
  induction chunks with
  | nil => intro _; rfl
  | cons d rest ih =>
    intro hall
    have hd : accept d = true := hall d (by simp)
    simp only [deliverChunks, List.map_cons, List.flatten_cons, deliverChunk,
      if_pos hd]
    have := ih (fun e he => hall e (by simp [he]))
    simp only [deliverChunks] at this
    simp [this]

/-- Claim C8: When the platform rejects the MarkdownV2-formatted send of one
chunk, exactly that chunk is re-sent once with all backslashes stripped as
plain text; chunks delivered before it are unaffected, chunks after it are
delivered normally, and the reply as a whole is never retried — the output
is the input chunk sequence, each element sent exactly once, with only the
rejected chunk replaced by its plain-text form. -/
theorem c8_fallback_is_chunk_local (accept : Str → Bool) (pre : List Str)
    (c : Str) (post : List Str) (hrej : accept c = false)
    (hpre : ∀ d ∈ pre, accept d = true) (hpost : ∀ d ∈ post, accept d = true) :
    deliverChunks accept (pre ++ c :: post)
      = pre.map Sent.fmt
        ++ Sent.plain (stripBackslashes c) :: post.map Sent.fmt := by
  have hsplit : deliverChunks accept (pre ++ c :: post)
      = deliverChunks accept pre ++ deliverChunk accept c
        ++ deliverChunks accept post := by
    simp [deliverChunks, List.map_append, List.flatten_append]
  rw [hsplit, deliverChunks_all_accepted accept pre hpre,
    deliverChunks_all_accepted accept post hpost]
  simp [deliverChunk, hrej]

/-- Witness for C8: the middle of three chunks is rejected. -/
theorem c8_fallback_is_chunk_local_witness :
    (fun s => decide (s ≠ ['a', '\\', 'b'])) ['a', '\\', 'b'] = false ∧
    deliverChunks (fun s => decide (s ≠ ['a', '\\', 'b']))
        ([['o', 'k']] ++ ['a', '\\', 'b'] :: [['z']])
      = [['o', 'k']].map Sent.fmt
        ++ Sent.plain (stripBackslashes ['a', '\\', 'b']) :: [['z']].map Sent.fmt :=
  ⟨by decide,
    c8_fallback_is_chunk_local (fun s => decide (s ≠ ['a', '\\', 'b']))
      [['o', 'k']] ['a', '\\', 'b'] [['z']] (by decide) (by decide) (by decide)⟩

/-! Section: Model registry claim -/

/-- Claim C6: the function `get_available_models` is a total function of its state and
the fetch outcome — no exception reaches the caller — and when the remote
query fails it returns the previously cached mapping whenever one exists
(stale or not), and otherwise installs and returns the hardcoded fallback
mapping, which has exactly three entries. -/
theorem c6_registry_degrades_never_fails :
    (∀ (st : RegistryState) (now : Nat), st.cache = none →
      get_available_models st now (Except.error ())
        = ({ cache := some fallback_models, cacheTime := now }, fallback_models)) ∧
    (∀ (st : RegistryState) (now : Nat) (c : List (Str × Str)),
      st.cache = some c →
      (get_available_models st now (Except.error ())).2 = c) ∧
    fallback_models.length = 3 := by
  refine ⟨?_, ?_, rfl⟩
  · intro st now hnone
    simp [get_available_models, refresh_models, hnone]
  · intro st now c hc
    simp only [get_available_models, hc]
    split
    · rfl
    · simp [refresh_models, hc]

/-- Witness for C6: an empty-cache state gets the fallback; a state caching
one entry gets that entry back on fetch failure. -/
theorem c6_registry_degrades_never_fails_witness :
    (RegistryState.mk none 0).cache = none ∧
    (RegistryState.mk (some [(['m'], ['M'])]) 0).cache = some [(['m'], ['M'])] ∧
    get_available_models (RegistryState.mk none 0) 500 (Except.error ())
      = ({ cache := some fallback_models, cacheTime := 500 }, fallback_models) ∧
    (get_available_models (RegistryState.mk (some [(['m'], ['M'])]) 0) 500
      (Except.error ())).2 = [(['m'], ['M'])] :=
  ⟨rfl, rfl,
    c6_registry_degrades_never_fails.1 (RegistryState.mk none 0) 500 rfl,
    c6_registry_degrades_never_fails.2.1
      (RegistryState.mk (some [(['m'], ['M'])]) 0) 500 [(['m'], ['M'])] rfl⟩

end ChatBot
